import Mathlib

/-!
Shallow embedding of the CSS scoping engine and component-loader state
logic of the `web-bases` repository
(`src/templates/enhance-structure/components/core/cssParser.js` and the
`ComponentLoader` module), with theorems checking the spec's claims
about them.

Strings are modelled as Lean `String`s; the character-level scanners of
the JavaScript source are transcribed as structurally recursive
functions over `List Char`.  JavaScript regular expressions are, for the
specific patterns the source uses, deterministic, and are transcribed as
explicit matching functions (each pattern's greedy/backtracking
behaviour is analysed in a comment at its definition).
-/

/-- The character class of JavaScript `\s` (as used by `String.prototype.trim`
and the `\s` regex class): ASCII whitespace, NBSP, BOM, and the Unicode
space separators. -/
def isJsWs (c : Char) : Bool :=
  c = ' ' ∨ c = '\t' ∨ c = '\n' ∨ c = '\r' ∨ c = '\x0b' ∨ c = '\x0c' ∨
  c = Char.ofNat 0xa0 ∨ c = Char.ofNat 0x1680 ∨
  (Char.ofNat 0x2000 ≤ c ∧ c ≤ Char.ofNat 0x200a) ∨
  c = Char.ofNat 0x2028 ∨ c = Char.ofNat 0x2029 ∨
  c = Char.ofNat 0x202f ∨ c = Char.ofNat 0x205f ∨
  c = Char.ofNat 0x3000 ∨ c = Char.ofNat 0xfeff

/-- The characters JavaScript's regex `.` (without the `s` flag) does NOT
match: the line terminators. -/
def isJsNewline (c : Char) : Bool :=
  c = '\n' ∨ c = '\r' ∨ c = Char.ofNat 0x2028 ∨ c = Char.ofNat 0x2029

/-- The regex class `[a-zA-Z-]`. -/
def isAlphaDash (c : Char) : Bool :=
  ('a' ≤ c ∧ c ≤ 'z') ∨ ('A' ≤ c ∧ c ≤ 'Z') ∨ c = '-'

/-- Trim JavaScript whitespace from both ends of a character list
(JavaScript `String.prototype.trim`). -/
def trimL (l : List Char) : List Char :=
  ((l.dropWhile isJsWs).reverse.dropWhile isJsWs).reverse

/-- `trim` returning a `String`. -/
def strTrimL (l : List Char) : String := ⟨trimL l⟩

/-- JavaScript `s.trim()`. -/
def jsTrim (s : String) : String := strTrimL s.data

/-- Take the longest leading run satisfying `p`, returning it and the rest
(the split a greedy regex `X*` makes before a delimiter not in `X`). -/
def spanP (p : Char → Bool) : List Char → List Char × List Char
  | [] => ([], [])
  | c :: cs =>
    if p c then
      let r := spanP p cs
      (c :: r.1, r.2)
    else ([], c :: cs)

/-- Decidable "the first list is a prefix of the second"
(JavaScript `String.prototype.startsWith`). -/
def isPre : List Char → List Char → Bool
  | [], _ => true
  | _ :: _, [] => false
  | p :: ps, c :: cs => p = c && isPre ps cs

/-- First index at which `pat` occurs as a sublist of `l`
(JavaScript `String.prototype.indexOf` with a string argument). -/
def findSub (pat : List Char) : List Char → Option Nat
  | [] => if isPre pat [] then some 0 else none
  | c :: t =>
    if isPre pat (c :: t) then some 0
    else (findSub pat t).map (· + 1)

/-- Last index of character `c` in `l` (JavaScript `lastIndexOf`). -/
def findLastIdx (c : Char) (l : List Char) : Option Nat :=
  match findSub [c] l.reverse with
  | some i => some (l.length - 1 - i)
  | none => none

/-- JavaScript `GetSubstitution` for a string-valued search (no capture
groups): `$$` → `$`, `$&` → the matched substring, a dollar before a
backquote → the part before the match, `$'` → the part after, anything
else literal. -/
def substDollar : List Char → List Char → List Char → List Char → List Char
  | [], _, _, _ => []
  | '$' :: '$' :: r, m, b, a => '$' :: substDollar r m b a
  | '$' :: '&' :: r, m, b, a => m ++ substDollar r m b a
  | '$' :: c :: r, m, b, a =>
    if c = Char.ofNat 0x60 then b ++ substDollar r m b a
    else if c = '\'' then a ++ substDollar r m b a
    -- `$` before any other character stays literal and scanning resumes at
    -- that character; since it is not `$`, the next step copies it, so the
    -- two steps are fused here to keep the recursion structural
    else '$' :: c :: substDollar r m b a
  | c :: r, m, b, a => c :: substDollar r m b a

/-- JavaScript `s.replace(search, repl)` with plain-string `search`:
replace the first occurrence only, applying `$`-substitution to `repl`. -/
def jsReplace (s search repl : String) : String :=
  match findSub search.data s.data with
  | none => s
  | some i =>
    let pre := s.data.take i
    let post := s.data.drop (i + search.data.length)
    ⟨pre ++ substDollar repl.data search.data pre post ++ post⟩

/-- Split a character list on a separator character (JavaScript
`String.prototype.split` with a one-character separator, which is the
only form the source uses). -/
def splitOnC (sep : Char) : List Char → List (List Char)
  | [] => [[]]
  | c :: t =>
    let r := splitOnC sep t
    if c = sep then [] :: r
    else
      match r with
      | h :: t2 => (c :: h) :: t2
      | [] => [[c]]

/-- `String.prototype.split` on one character, as strings. -/
def jsSplit (s : String) (sep : Char) : List String :=
  (splitOnC sep s.data).map (fun l => ⟨l⟩)

/-- JavaScript `Array.prototype.join`. -/
def joinSep (sep : String) : List String → String
  | [] => ""
  | [x] => x
  | x :: y :: xs => x ++ sep ++ joinSep sep (y :: xs)

/-!
## CSSParser.parseRules (cssParser.js lines 178-266)

A transcription of the character loop.  The JavaScript loop indexes the
string; here the list of remaining characters is consumed and `prev`
carries the previously consumed character (`css[i-1]`), which the
string-escape check reads.  `continue` branches that skip the
`currentRule += char` append (comment delimiters, comment interiors,
line comments) are the branches below that recurse without extending
`cur`.
-/

/-- One pass of `CSSParser.parseRules`' loop.  Returns the pushed rules and
the final `currentRule` buffer.  The recursion is structural on a fuel
argument so that the kernel can evaluate it; every step consumes at least
one character, so fuel equal to the input length always reaches the same
end state as the JavaScript loop (`parseRules` passes exactly that). -/
def parseRulesAux : Nat → List Char → Option Char → List String → List Char →
    Int → Bool → Char → Bool → Bool → Int → List String × List Char
  | 0, _, _, rules, cur, _, _, _, _, _, _ => (rules, cur)
  | _, [], _, rules, cur, _, _, _, _, _, _ => (rules, cur)
  | Nat.succ fuel, c :: rest, prev, rules, cur, depth, inStr, sc, inCom, inVar, pd =>
    -- handle strings (lines 193-200)
    let s2 : Bool × Char :=
      if ¬ inCom ∧ (c = '"' ∨ c = '\'') then
        if ¬ inStr then (true, c)
        else if sc = c ∧ prev ≠ some '\\' then (false, sc)
        else (inStr, sc)
      else (inStr, sc)
    let inStr := s2.1
    let sc := s2.2
    -- handle block comments (lines 203-217)
    if ¬ inStr ∧ c = '/' ∧ rest.head? = some '*' then
      parseRulesAux fuel rest.tail (some '*') rules cur depth inStr sc true inVar pd
    else if inCom ∧ c = '*' ∧ rest.head? = some '/' then
      parseRulesAux fuel rest.tail (some '/') rules cur depth inStr sc false inVar pd
    else if inCom then
      parseRulesAux fuel rest (some c) rules cur depth inStr sc inCom inVar pd
    -- handle single-line comments (lines 220-226): skip to past end of line
    else if ¬ inStr ∧ c = '/' ∧ rest.head? = some '/' then
      parseRulesAux fuel ((rest.dropWhile (· ≠ '\n')).drop 1) (some '\n')
        rules cur depth inStr sc inCom inVar pd
    else
      -- track var() functions (lines 229-244)
      let v2 : Bool × Int :=
        if ¬ inStr then
          let inVar := if c = 'v' ∧ rest.take 3 = ['a', 'r', '('] then true else inVar
          if inVar then
            if c = '(' then (inVar, pd + 1)
            else if c = ')' then
              let pd := pd - 1
              if pd = 0 then (false, pd) else (inVar, pd)
            else (inVar, pd)
          else (inVar, pd)
        else (inVar, pd)
      let inVar := v2.1
      let pd := v2.2
      let cur := cur ++ [c]
      -- track braces for rule boundaries (lines 249-257)
      if c = '{' ∧ ¬ inStr ∧ ¬ inVar then
        parseRulesAux fuel rest (some c) rules cur (depth + 1) inStr sc inCom inVar pd
      else if c = '}' ∧ ¬ inStr ∧ ¬ inVar then
        let depth := depth - 1
        if depth = 0 then
          parseRulesAux fuel rest (some c) (rules ++ [strTrimL cur]) [] depth inStr sc inCom inVar pd
        else
          parseRulesAux fuel rest (some c) rules cur depth inStr sc inCom inVar pd
      else
        parseRulesAux fuel rest (some c) rules cur depth inStr sc inCom inVar pd

/-- `CSSParser.parseRules` (lines 178-266): split CSS into top-level
brace-balanced rule chunks; a non-empty trailing chunk is emitted too. -/
def parseRules (css : String) : List String :=
  let st := parseRulesAux css.data.length css.data none [] [] 0 false ' ' false false 0
  if strTrimL st.2 ≠ "" then st.1 ++ [strTrimL st.2] else st.1

/-!
## Selector scoping (cssParser.js lines 356-433, 503-533)

The source's regular expressions are deterministic on their inputs
(each quantified class excludes its delimiter), so each is transcribed
as a direct matching function:

* `^([a-zA-Z-]*)(::?[a-zA-Z-]+(\([^)]*\))?)$`  — `pseudoMatch`
* `^:host\(([^)]+)\)$`                          — `hostClassMatch`
* `^:host\(([^)]+)\)(::?[a-zA-Z-]+(\([^)]*\))?)$` — `hostClassPseudoMatch`
* `^:host(::?[a-zA-Z-]+(\([^)]*\))?)$`          — `hostPseudoMatch`
-/

/-- Match `::?[a-zA-Z-]+(\([^)]*\))?` anchored to the end of the list,
returning the whole pseudo text.  `::?` commits greedily to `::` when the
second character is a colon; since `[a-zA-Z-]` excludes `:` no backtracking
can change the outcome. -/
def pseudoTail (l : List Char) : Option (List Char) :=
  let core : List Char → List Char → Option (List Char) := fun cols r =>
    let s := spanP isAlphaDash r
    if s.1.isEmpty then none
    else
      match s.2 with
      | [] => some (cols ++ s.1)
      | '(' :: r2 =>
        let t := spanP (fun c => ¬ (c = ')')) r2
        match t.2 with
        | [')'] => some (cols ++ s.1 ++ '(' :: t.1 ++ [')'])
        | _ => none
      | _ => none
  match l with
  | ':' :: ':' :: r => core [':', ':'] r
  | ':' :: r => core [':'] r
  | _ => none

/-- Match `^([a-zA-Z-]*)(::?[a-zA-Z-]+(\([^)]*\))?)$`, giving
(base, pseudo). -/
def pseudoMatch (l : List Char) : Option (List Char × List Char) :=
  let s := spanP isAlphaDash l
  (pseudoTail s.2).map (fun ps => (s.1, ps))

/-- Match `^:host\(([^)]+)\)$`, giving the parenthesised group. -/
def hostClassMatch (l : List Char) : Option (List Char) :=
  match l with
  | ':' :: 'h' :: 'o' :: 's' :: 't' :: '(' :: r =>
    let s := spanP (fun c => ¬ (c = ')')) r
    if s.1.isEmpty then none
    else
      match s.2 with
      | [')'] => some s.1
      | _ => none
  | _ => none

/-- Match `^:host\(([^)]+)\)(::?[a-zA-Z-]+(\([^)]*\))?)$`, giving
(class group, pseudo group). -/
def hostClassPseudoMatch (l : List Char) : Option (List Char × List Char) :=
  match l with
  | ':' :: 'h' :: 'o' :: 's' :: 't' :: '(' :: r =>
    let s := spanP (fun c => ¬ (c = ')')) r
    if s.1.isEmpty then none
    else
      match s.2 with
      | ')' :: r2 => (pseudoTail r2).map (fun ps => (s.1, ps))
      | _ => none
  | _ => none

/-- Match `^:host(::?[a-zA-Z-]+(\([^)]*\))?)$`, giving the pseudo group. -/
def hostPseudoMatch (l : List Char) : Option (List Char) :=
  match l with
  | ':' :: 'h' :: 'o' :: 's' :: 't' :: r => pseudoTail r
  | _ => none

/-- `CSSParser.handleHostSelector` (lines 403-433). -/
def handleHostSelector (selector scopeSelector : String) : String :=
  if selector = ":host" then scopeSelector
  else
    match hostClassMatch selector.data with
    | some x => scopeSelector ++ ⟨x⟩
    | none =>
      match hostClassPseudoMatch selector.data with
      | some (x, ps) => scopeSelector ++ ⟨x⟩ ++ ⟨ps⟩
      | none =>
        match hostPseudoMatch selector.data with
        | some ps => scopeSelector ++ ⟨ps⟩
        | none => jsReplace selector ":host" scopeSelector

/-- Match `^--[a-zA-Z-]+$` (the custom-property check of line 390). -/
def customPropMatch (l : List Char) : Bool :=
  match l with
  | '-' :: '-' :: r => ¬ r.isEmpty ∧ r.all isAlphaDash
  | _ => false

/-- The per-selector body of `CSSParser.scopeSelectors` (lines 356-398). -/
def scopeSelectorOne (scopeSelector sel : String) : String :=
  let t := jsTrim sel
  if isPre ['@'] t.data then t
  else if t = "html" ∨ t = ":root" ∨ t = "body" then t
  else if isPre [':', 'h', 'o', 's', 't'] t.data then handleHostSelector t scopeSelector
  else
    match pseudoMatch t.data with
    | some (base, pseudo) =>
      if base = ['h', 'o', 's', 't'] ∨ base = [] then scopeSelector ++ ⟨pseudo⟩
      else scopeSelector ++ " " ++ ⟨base⟩ ++ ⟨pseudo⟩
    | none =>
      if customPropMatch t.data then t
      else scopeSelector ++ " " ++ t

/-- `CSSParser.scopeSelectors`: split on commas, rewrite each selector,
join with `", "`. -/
def scopeSelectors (selectors scopeSelector : String) : String :=
  joinSep ", " ((jsSplit selectors ',').map (scopeSelectorOne scopeSelector))

/-- The per-selector body of `CSSParser.scopeSelectorsSafe`
(lines 503-533). -/
def scopeSelectorSafeOne (scopeSelector sel : String) : String :=
  let t := jsTrim sel
  if isPre ['-', '-'] t.data then t
  else if isPre ['@'] t.data then t
  else if t = "html" ∨ t = ":root" ∨ t = "body" then t
  else if isPre [':', 'h', 'o', 's', 't'] t.data then jsReplace t ":host" scopeSelector
  else scopeSelector ++ " " ++ t

/-- `CSSParser.scopeSelectorsSafe`. -/
def scopeSelectorsSafe (selectors scopeSelector : String) : String :=
  joinSep ", " ((jsSplit selectors ',').map (scopeSelectorSafeOne scopeSelector))

/-!
## CSSParser.scopeRule / scopeAtRule / scopeWithManualParser
(cssParser.js lines 163-351)

`scopeWithManualParser` and `scopeRule` are mutually recursive through
`scopeAtRule` (a `@media`-like rule rescopes its inner rule list with the
same algorithm).  The recursion is not structural, so the pair below
carries a fuel argument; every recursive descent strips at least the at-
rule's prelude and braces, so `css.length` fuel always suffices, and the
top-level wrappers pass that.  `scopeAtRule`'s body (lines 305-351) is
inlined in `scopeRuleF`'s `@`-branch.
-/

/-- The at-rules of lines 307-315 that pass through unscoped. -/
def nonScopedAtRules : List String :=
  ["@keyframes", "@-webkit-keyframes", "@-moz-keyframes",
   "@font-face", "@import", "@charset", "@namespace"]

/-- The at-rules of lines 325-328 whose bodies are rescoped. -/
def scopedAtRules : List String :=
  ["@media", "@supports", "@container", "@layer"]

/-- `CSSParser.scopeWithManualParser` (lines 163-173, `tag = false`) and
`CSSParser.scopeRule` (lines 271-300, `tag = true`) with `scopeAtRule`
(lines 305-351) inlined in the `@`-branch of the latter.  The two
functions are mutually recursive (a `@media`-like rule rescopes its inner
rule list with the same algorithm), which is encoded as one function,
structural on fuel, selected by `tag`; each descent into an at-rule body
strips the prelude and braces, so the fuel the wrappers pass suffices. -/
def scopeCssF : Nat → Bool → String → String → String
  | 0, _, css, _ => css
  | Nat.succ fuel, false, css, scopeSelector =>
    ((parseRules css).map
      (fun r => scopeCssF fuel true r scopeSelector ++ "\n")).foldl (· ++ ·) ""
  | Nat.succ fuel, true, rule, scopeSelector =>
    if ¬ rule.data.contains '{' then rule
    else
      let beforeBrace := strTrimL (rule.data.takeWhile (· ≠ '{'))
      let afterBrace : String := ⟨rule.data.dropWhile (· ≠ '{')⟩
      if isPre ['@'] beforeBrace.data then
        if nonScopedAtRules.any (fun p => isPre p.data beforeBrace.data) then rule
        else if scopedAtRules.any (fun p => isPre p.data beforeBrace.data) then
          let innerStart : Int :=
            match findSub ['{'] afterBrace.data with
            | some i => (i : Int) + 1
            | none => 0
          let innerEnd : Int :=
            match findLastIdx '}' afterBrace.data with
            | some i => (i : Int)
            | none => -1
          if innerStart ≥ innerEnd then rule
          else
            let innerCSS : String :=
              ⟨(afterBrace.data.take innerEnd.toNat).drop innerStart.toNat⟩
            let scopedInner := scopeCssF fuel false innerCSS scopeSelector
            beforeBrace ++ " \x7b" ++ scopedInner ++ "\x7d"
        else rule
      else scopeSelectors beforeBrace scopeSelector ++ afterBrace

/-- `CSSParser.scopeRule` at adequate fuel. -/
def scopeRule (rule scopeSelector : String) : String :=
  scopeCssF (rule.data.length + 2) true rule scopeSelector

/-- `CSSParser.scopeWithManualParser` at adequate fuel. -/
def scopeWithManualParser (css scopeSelector : String) : String :=
  scopeCssF (css.data.length + 2) false css scopeSelector

/-!
## CSSParser.scopeCSSSafe (cssParser.js lines 438-498)

Line-based scoping: only a line that contains `{` but no `}` opens a rule
and has its selector part rewritten; every other line passes through with
a newline appended.  (The two arms of the final `if` of the source both
append the line unchanged, so they collapse here.)
-/

/-- The loop of `CSSParser.scopeCSSSafe` over the split lines, with the
`inRule` flag threaded through. -/
def scopeCSSSafeLines (scopeSelector : String) : List String → Bool → String
  | [], _ => ""
  | line :: rest, inRule =>
    let t := jsTrim line
    if t = "" then line ++ "\n" ++ scopeCSSSafeLines scopeSelector rest inRule
    else if t.data.contains '{' ∧ ¬ t.data.contains '}' then
      let sels := jsTrim ⟨t.data.takeWhile (· ≠ '{')⟩
      let sc2 := scopeSelectorsSafe sels scopeSelector
      sc2 ++ " \x7b" ++ ⟨(t.data.dropWhile (· ≠ '{')).drop 1⟩ ++ "\n" ++
        scopeCSSSafeLines scopeSelector rest true
    else if t.data.contains '}' ∧ ¬ t.data.contains '{' then
      line ++ "\n" ++ scopeCSSSafeLines scopeSelector rest false
    else
      line ++ "\n" ++ scopeCSSSafeLines scopeSelector rest inRule

/-- `CSSParser.scopeCSSSafe`. -/
def scopeCSSSafe (css scopeSelector : String) : String :=
  scopeCSSSafeLines scopeSelector (jsSplit css '\n') false

/-!
## CSSParser.needsFix / fixBrokenCSS (cssParser.js lines 612-635)

Both regexes,
`var\(--[a-zA-Z-]+,\s*\[[^\]]+\]\s*[^),]+\)` (`needsFix`) and
`var\((--[a-zA-Z-]+),\s*(\[[^\]]+\]\s*[^),]+)\)` (`fixBrokenCSS`),
are the same pattern up to groups.  Each quantified class excludes the
delimiter that follows it (`[a-zA-Z-]` excludes `,`; `\s` excludes `[`;
`[^\]]` excludes `]`; `[^),]` excludes `)`), so greedy matching is
deterministic: `matchBroken` attempts the pattern at the head of a
character list and returns the two capture groups and the matched
length.
-/

/-- Attempt the broken-`var()` pattern at the head of `l`.  On success,
`some (group1, group2, n)` where `n` is the length of the whole match. -/
def matchBroken (l : List Char) : Option (List Char × List Char × Nat) :=
  match l with
  | 'v' :: 'a' :: 'r' :: '(' :: '-' :: '-' :: r =>
    let nm := spanP isAlphaDash r
    if nm.1.isEmpty then none
    else
      match nm.2 with
      | ',' :: r2 =>
        let ws := spanP isJsWs r2
        match ws.2 with
        | '[' :: r4 =>
          let inner := spanP (fun c => ¬ (c = ']')) r4
          if inner.1.isEmpty then none
          else
            match inner.2 with
            | ']' :: r6 =>
              let tl := spanP (fun c => ¬ (c = ')') ∧ ¬ (c = ',')) r6
              if tl.1.isEmpty then none
              else
                match tl.2 with
                | ')' :: _ =>
                  some ('-' :: '-' :: nm.1,
                    '[' :: (inner.1 ++ ']' :: tl.1),
                    6 + nm.1.length + 1 + ws.1.length + 1 +
                      inner.1.length + 1 + tl.1.length + 1)
                | _ => none
            | _ => none
        | _ => none
      | _ => none
  | _ => none

/-- The scan of `RegExp.prototype.test`: try the pattern at every start
position. -/
def needsFixAux : List Char → Bool
  | [] => false
  | c :: t => (matchBroken (c :: t)).isSome || needsFixAux t

/-- `CSSParser.needsFix` (lines 632-635). -/
def needsFix (css : String) : Bool := needsFixAux css.data

/-- The callback's inner match `/\]\s*(.+)$/` on the second group
(line 622): leftmost `]`, then greedy `\s*`; `(.+)` must reach the end of
the string without crossing a line terminator, so the one viable split
takes `min w (L-1)` whitespace characters (`w` the whitespace-prefix
length, `L` the length after the `]`); on failure the scan moves to the
next `]`. -/
def valueAfterBracket : List Char → Option (List Char)
  | [] => none
  | c :: t =>
    if c = ']' then
      let L := t.length
      if L = 0 then valueAfterBracket t
      else
        let w := (spanP isJsWs t).1.length
        let v := t.drop (min w (L - 1))
        if v.any isJsNewline then valueAfterBracket t else some v
    else valueAfterBracket t

/-- The replacement the callback of lines 620-626 builds from the two
groups. -/
def fixRepl (g1 g2 : List Char) : List Char :=
  let cleanValue := (valueAfterBracket g2).getD g2
  ("var(".data ++ g1 ++ ", ".data ++ cleanValue ++ [')'])

/-- Global replace: scan left to right, splice the replacement over each
match and continue after it.  Structural on fuel; every step consumes at
least one character, so fuel equal to the input length reaches the end of
the scan (`fixBrokenCSS` passes exactly that). -/
def fixAux : Nat → List Char → List Char
  | 0, l => l
  | _, [] => []
  | Nat.succ fuel, c :: t =>
    match matchBroken (c :: t) with
    | some (g1, g2, n) => fixRepl g1 g2 ++ fixAux fuel (t.drop (n - 1))
    | none => c :: fixAux fuel t

/-- `CSSParser.fixBrokenCSS` (lines 612-627). -/
def fixBrokenCSS (css : String) : String := ⟨fixAux css.data.length css.data⟩

/-- The CSS transformation of `ComponentLoader.injectScopedStyles`
(part_000 lines 514-558) for non-blank CSS when the parser is present:
repair if `needsFix`, scope with `scopeCSSSafe`, then repair the output
again if it still matches the broken pattern.  (`validate` is also called
there but in graceful mode only logs; it does not change the CSS.) -/
def renderScopedCSS (css scopeSelector : String) : String :=
  let css1 := if needsFix css then fixBrokenCSS css else css
  let sc2 := scopeCSSSafe css1 scopeSelector
  if needsFix sc2 then fixBrokenCSS sc2 else sc2

/-!
## ComponentLoader.simpleScopeCSS (part_000 lines 561-612)

The fallback scoper: line-based; the `inVarFunction`/`parenDepth` state
of the source is never written (the final `if` has an empty body), so it
is omitted; `processedLine` is rebuilt only for a line with `{` and
without `}` that splits into exactly two parts on `{` and whose selector
list does not start with `--`.
-/

/-- The per-selector map of `simpleScopeCSS` (lines 583-595), applied to
an already trimmed selector. -/
def simpleScopeOne (scopeSelector s : String) : String :=
  let t := jsTrim s
  if isPre [':', 'h', 'o', 's', 't'] t.data then jsReplace t ":host" scopeSelector
  else if t = "html" ∨ t = ":root" ∨ isPre ['@'] t.data then t
  else scopeSelector ++ " " ++ t

/-- One line of `simpleScopeCSS` (the `processedLine` computation). -/
def simpleScopeCSSLine (scopeSelector line : String) : String :=
  if line.data.contains '{' ∧ ¬ line.data.contains '}' then
    match jsSplit line '\x7b' with
    | [a, b] =>
      let sels := jsTrim a
      if isPre ['-', '-'] sels.data then line
      else
        let sc2 := joinSep ", "
          ((jsSplit sels ',').map (simpleScopeOne scopeSelector))
        sc2 ++ " \x7b" ++ b
    | _ => line
  else line

/-- `ComponentLoader.simpleScopeCSS`. -/
def simpleScopeCSS (css scopeId : String) : String :=
  let scopeSelector := "[data-component-id=\"" ++ scopeId ++ "\"]"
  ((jsSplit css '\n').map
    (fun line => simpleScopeCSSLine scopeSelector line ++ "\n")).foldl (· ++ ·) ""

/-!
## CSSParser.validate (cssParser.js lines 560-607)

Without a browser `CSSStyleSheet`, `validate` runs the manual
brace-balance loop inside a `try`: an unmatched closing brace or a
non-zero final count throws, the `catch` turns any throw into `false`.
The throwing loop is modelled with `Except`; `validate` itself is the
total `Bool` function the caller sees (it never propagates the throw).
-/

/-- The string-literal state update shared by the validator and its
specification: JavaScript lines 578-585. -/
def valStep (c : Char) (prev : Option Char) (inStr : Bool) (sc : Char) : Bool × Char :=
  if c = '"' ∨ c = '\'' then
    if ¬ inStr then (true, c)
    else if sc = c ∧ prev ≠ some '\\' then (false, sc)
    else (inStr, sc)
  else (inStr, sc)

/-- The brace count contribution of one character (0 inside a string). -/
def braceDelta (c : Char) (inStr : Bool) : Int :=
  if inStr then 0 else if c = '{' then 1 else if c = '}' then -1 else 0

/-- The loop of `validate` (lines 574-596): `.error` models the throw on
an unmatched closing brace, `.ok` returns the final count. -/
def validateAux : List Char → Option Char → Bool → Char → Int → Except Unit Int
  | [], _, _, _, braces => .ok braces
  | c :: l, prev, inStr, sc, braces =>
    let st := valStep c prev inStr sc
    let braces := braces + braceDelta c st.1
    if ¬ st.1 ∧ braces < 0 then .error ()
    else validateAux l (some c) st.1 st.2 braces

/-- `CSSParser.validate` (manual branch): `true` iff the loop neither
throws nor ends with a non-zero count (lines 592-606). -/
def validate (css : String) : Bool :=
  match validateAux css.data none false ' ' 0 with
  | .ok braces => braces = 0
  | .error _ => false

/-- Modelled from the spec's words ("brace-balance check (string-literal
aware)"): the final string-aware brace count of the CSS. -/
def finalDepth : List Char → Option Char → Bool → Char → Int → Int
  | [], _, _, _, braces => braces
  | c :: l, prev, inStr, sc, braces =>
    let st := valStep c prev inStr sc
    finalDepth l (some c) st.1 st.2 (braces + braceDelta c st.1)

/-- Modelled from the spec's words: the least intermediate string-aware
brace count (seeded with the starting count). -/
def minDepth : List Char → Option Char → Bool → Char → Int → Int
  | [], _, _, _, braces => braces
  | c :: l, prev, inStr, sc, braces =>
    let st := valStep c prev inStr sc
    min braces (minDepth l (some c) st.1 st.2 (braces + braceDelta c st.1))

/-- Modelled from the spec's words: a CSS string is brace-balanced when,
counting only braces outside string literals, no prefix closes more
braces than were opened and the final count is zero. -/
def braceBalanced (css : String) : Prop :=
  finalDepth css.data none false ' ' 0 = 0 ∧ 0 ≤ minDepth css.data none false ' ' 0

/-!
## ComponentLoader.fetchComponentWithRetry (part_000 lines 205-228) and
the loadComponent error path (lines 89-202)

The fetch is an oracle `Nat → Except ε α` giving each attempt's outcome.
The JavaScript `for (let i = 0; i <= config.retryCount; i++)` loop is
encoded structurally on the number of retries remaining
(`remaining = retryCount - i`, so `i < retryCount ↔ remaining > 0`);
the trace records the attempt count and every backoff delay awaited
(`retryDelay * (i + 1)` before retry `i + 1`).
-/

/-- What a run of `fetchComponentWithRetry` did: its result, how many
fetch attempts it made and which delays it awaited, in order. -/
structure RetryTrace (ε α : Type) where
  result : Except ε α
  attempts : Nat
  delays : List Nat

/-- The retry loop.  `i` is the current attempt index, `remaining` the
retries still allowed (`retryCount - i`). -/
def fwrAux (fetch : Nat → Except ε α) (retryDelay : Nat) :
    Nat → Nat → List Nat → RetryTrace ε α
  | i, 0, acc =>
    match fetch i with
    | .ok v => ⟨.ok v, i + 1, acc⟩
    | .error e => ⟨.error e, i + 1, acc⟩
  | i, Nat.succ rem, acc =>
    match fetch i with
    | .ok v => ⟨.ok v, i + 1, acc⟩
    | .error _ => fwrAux fetch retryDelay (i + 1) rem (acc ++ [retryDelay * (i + 1)])

/-- `ComponentLoader.fetchComponentWithRetry` with configuration
`retryCount`, `retryDelay`: up to `retryCount + 1` attempts, linear
backoff, the last error surfaced. -/
def fetchComponentWithRetry (fetch : Nat → Except ε α) (retryCount retryDelay : Nat) :
    RetryTrace ε α :=
  fwrAux fetch retryDelay 0 retryCount []

/-- A fetched component: the extracted HTML and CSS. -/
structure CompData where
  html : String
  css : String

/-- The dataset flags `loadComponent` reads and writes on the placeholder
element (`data-loading`, `data-loaded`, `data-error`,
`data-error-message`, `data-error-rendered`, `data-load-id`); `none` is
an absent attribute. -/
structure ElementState where
  loading : Option String
  loaded : Option String
  error : Option String
  errorMessage : Option String
  errorRendered : Option String
  loadId : Option String

/-- A placeholder with no dataset flags set. -/
def ElementState.fresh : ElementState := ⟨none, none, none, none, none, none⟩

/-- `ComponentLoader.loadComponent` (part_000 lines 89-202) restricted to
the element-state effects: mark loading, resolve the component from the
cache or via `fetchComponentWithRetry`, then either apply the render's
element effects (passed in as `renderEffect`; the claim under check
concerns only the failure path, which never renders) and mark loaded, or
run the catch block of lines 168-200: mark the error state, in graceful
mode render the error panel once and clear the load id, in strict mode
rethrow (so the cleanup after the `if` is skipped). -/
def loadComponentModel (fetch : Nat → Except String CompData)
    (retryCount retryDelay : Nat) (graceful : Bool)
    (renderEffect : ElementState → CompData → ElementState)
    (cacheEnabled : Bool) (cached : Option CompData)
    (el : ElementState) (lid : String) : ElementState × Except String Unit :=
  let el := { el with loading := some "true", loadId := some lid }
  let fetched : Except String CompData :=
    match cacheEnabled, cached with
    | true, some cd => .ok cd
    | _, _ => (fetchComponentWithRetry fetch retryCount retryDelay).result
  match fetched with
  | .ok cd =>
    let el := renderEffect el cd
    ({ el with loaded := some "true", loading := some "false",
               error := none, loadId := none }, .ok ())
  | .error e =>
    let el := { el with loading := some "false", loaded := some "false",
                        error := some "true", errorMessage := some e }
    if graceful then
      let el :=
        if el.errorRendered = none then { el with errorRendered := some "true" } else el
      ({ el with loadId := none }, .ok ())
    else (el, .error e)

/-!
## ComponentLoader.injectStyles (part_000 lines 615-633)

The document head is the list of injected style elements, the
style-tracking `Map` an association list in insertion order (JavaScript
`Map` preserves it).  `injectStyles` returns `null` for blank CSS and
otherwise appends one new element to the head and to the scope's list,
creating that list when absent.
-/

/-- A `<style>` element as `injectStyles` builds it: its
`data-component-scope`, `data-component-style` and text content. -/
structure StyleElem where
  componentScope : String
  componentStyle : String
  textContent : String

/-- The document state `injectStyles` touches. -/
structure DocState where
  headElems : List StyleElem
  stylesMap : List (String × List StyleElem)

/-- `Map.prototype.get` on the association list. -/
def lookupA : List (String × List StyleElem) → String → Option (List StyleElem)
  | [], _ => none
  | (k, v) :: t, key => if k = key then some v else lookupA t key

/-- Apply `f` to the entry of `key` (the in-place `.push` on the array
`Map.prototype.get` returned). -/
def updateA (f : List StyleElem → List StyleElem) :
    List (String × List StyleElem) → String → List (String × List StyleElem)
  | [], _ => []
  | (k, v) :: t, key =>
    if k = key then (k, f v) :: t else (k, v) :: updateA f t key

/-- `ComponentLoader.injectStyles`. -/
def injectStyles (css scopeId : String) (doc : DocState) : Option StyleElem × DocState :=
  if jsTrim css = "" then (none, doc)
  else
    let style : StyleElem := ⟨scopeId, "true", css⟩
    let head' := doc.headElems ++ [style]
    let m1 :=
      if (lookupA doc.stylesMap scopeId).isSome then doc.stylesMap
      else doc.stylesMap ++ [(scopeId, [])]
    let m2 := updateA (fun l => l ++ [style]) m1 scopeId
    (some style, ⟨head', m2⟩)

/-!
## Supporting lemmas
-/

/-- A greedy character-class scan over `xs ++ c :: cs` stops exactly at
`c` when every character of `xs` is in the class and `c` is not. -/
theorem spanP_concat (p : Char → Bool) (xs : List Char) (c : Char) (cs : List Char)
    (hxs : ∀ x ∈ xs, p x = true) (hc : p c = false) :
    spanP p (xs ++ c :: cs) = (xs, c :: cs) := by
  induction xs with
  | nil => simp [spanP, hc]
  | cons y ys ih =>
    have hy : p y = true := hxs y (by simp)
    have ih' := ih (fun x hx => hxs x (by simp [hx]))
    simp [spanP, hy, ih']

/-- `matchBroken` never matches the empty list. -/
theorem matchBroken_nil : matchBroken [] = none := rfl

/-- The scan of `needsFixAux` finds a match that occurs at any position. -/
theorem needsFixAux_append (pre l : List Char) (h : (matchBroken l).isSome = true) :
    needsFixAux (pre ++ l) = true := by
  induction pre with
  | nil =>
    cases l with
    | nil => rw [matchBroken_nil] at h; cases h
    | cons c t => simp only [List.nil_append, needsFixAux, h, Bool.true_or]
  | cons c t ih =>
    simp only [List.cons_append, List.append_eq, needsFixAux, ih, Bool.or_true]

/-- A prefix of length one of a satisfied prefix check. -/
theorem isPre_head (x : Char) (xs l : List Char) (h : isPre (x :: xs) l = true) :
    isPre [x] l = true := by
  cases l with
  | nil => simp [isPre] at h
  | cons c cs =>
    simp only [isPre, Bool.and_eq_true] at h ⊢
    exact ⟨h.1, by simp [isPre]⟩

/-- The minimum tracked by `minDepth` never exceeds its seed. -/
theorem minDepth_le_seed (l : List Char) :
    ∀ (prev : Option Char) (inStr : Bool) (sc : Char) (b : Int),
      minDepth l prev inStr sc b ≤ b := by
  induction l with
  | nil => intro prev inStr sc b; simp [minDepth]
  | cons c t ih =>
    intro prev inStr sc b
    simp only [minDepth]
    exact min_le_left _ _

/-- The validator loop throws exactly when some intermediate string-aware
brace count goes negative, and otherwise returns the final count. -/
theorem validateAux_spec (l : List Char) :
    ∀ (prev : Option Char) (inStr : Bool) (sc : Char) (b : Int), 0 ≤ b →
      validateAux l prev inStr sc b =
        (if 0 ≤ minDepth l prev inStr sc b
         then .ok (finalDepth l prev inStr sc b) else .error ()) := by
  induction l with
  | nil =>
    intro prev inStr sc b hb
    simp [validateAux, minDepth, finalDepth, hb]
  | cons c t ih =>
    intro prev inStr sc b hb
    simp only [validateAux, minDepth, finalDepth]
    by_cases hneg : ¬ (valStep c prev inStr sc).1 = true ∧
        b + braceDelta c (valStep c prev inStr sc).1 < 0
    · rw [if_pos hneg]
      have hm := minDepth_le_seed t (some c) (valStep c prev inStr sc).1
        (valStep c prev inStr sc).2 (b + braceDelta c (valStep c prev inStr sc).1)
      rw [if_neg]
      omega
    · rw [if_neg hneg]
      have hb' : 0 ≤ b + braceDelta c (valStep c prev inStr sc).1 := by
        by_cases h1 : (valStep c prev inStr sc).1 = true
        · simp only [braceDelta, h1, if_true]; omega
        · push_neg at hneg
          have := hneg (by simpa using h1)
          omega
      rw [ih (some c) (valStep c prev inStr sc).1 (valStep c prev inStr sc).2 _ hb']
      by_cases hmin : 0 ≤ minDepth t (some c) (valStep c prev inStr sc).1
          (valStep c prev inStr sc).2 (b + braceDelta c (valStep c prev inStr sc).1)
      · rw [if_pos hmin, if_pos (by omega)]
      · rw [if_neg hmin, if_neg (by omega)]

/-- Looking up a key just added with an empty list. -/
theorem lookupA_append_self (m : List (String × List StyleElem)) (key : String)
    (h : lookupA m key = none) : lookupA (m ++ [(key, [])]) key = some [] := by
  induction m with
  | nil => simp [lookupA]
  | cons e t ih =>
    obtain ⟨k, v⟩ := e
    simp only [lookupA] at h
    by_cases hk : k = key
    · rw [if_pos hk] at h; cases h
    · rw [if_neg hk] at h
      simp only [List.cons_append, lookupA, if_neg hk]
      exact ih h

/-- Adding an entry for another key does not change a lookup. -/
theorem lookupA_append_other (m : List (String × List StyleElem)) (key k : String)
    (h : k ≠ key) : lookupA (m ++ [(key, [])]) k = lookupA m k := by
  induction m with
  | nil =>
    simp only [List.nil_append, lookupA]
    rw [if_neg (fun hh => h hh.symm)]
  | cons e t ih =>
    obtain ⟨k1, v⟩ := e
    simp only [List.cons_append, lookupA]
    by_cases hk : k1 = k
    · rw [if_pos hk, if_pos hk]
    · rw [if_neg hk, if_neg hk]
      exact List.append_eq _ _ ▸ ih

/-- Updating a key's entry maps its lookup. -/
theorem lookupA_updateA_self (f : List StyleElem → List StyleElem)
    (m : List (String × List StyleElem)) (key : String) :
    lookupA (updateA f m key) key = (lookupA m key).map f := by
  induction m with
  | nil => simp [lookupA, updateA]
  | cons e t ih =>
    obtain ⟨k, v⟩ := e
    simp only [updateA, lookupA]
    by_cases hk : k = key
    · rw [if_pos hk]
      simp [lookupA, if_pos hk]
    · rw [if_neg hk]
      simp only [lookupA, if_neg hk]
      exact ih

/-- Updating one key's entry does not change other lookups. -/
theorem lookupA_updateA_other (f : List StyleElem → List StyleElem)
    (m : List (String × List StyleElem)) (key k : String) (h : k ≠ key) :
    lookupA (updateA f m key) k = lookupA m k := by
  induction m with
  | nil => simp [lookupA, updateA]
  | cons e t ih =>
    obtain ⟨k1, v⟩ := e
    simp only [updateA, lookupA]
    by_cases hk : k1 = key
    · rw [if_pos hk]
      simp only [lookupA]
      rw [if_neg (fun hh => h (hk ▸ hh.symm)), if_neg (fun hh => h (hk ▸ hh.symm))]
    · rw [if_neg hk]
      simp only [lookupA]
      by_cases hk2 : k1 = k
      · rw [if_pos hk2, if_pos hk2]
      · rw [if_neg hk2, if_neg hk2, ih]

/-- The broken-`var()` pattern matches at the head of any list built from
its grammar: a non-empty `[a-zA-Z-]` name, `\s*` whitespace, a non-empty
bracketed fragment without `]`, and a non-empty value without `)` or `,`,
closed by `)`, whatever follows. -/
theorem matchBroken_concat (nm ws inner tl post : List Char)
    (hnm0 : nm ≠ []) (hnm : ∀ x ∈ nm, isAlphaDash x = true)
    (hws : ∀ x ∈ ws, isJsWs x = true)
    (hin0 : inner ≠ []) (hin : ∀ x ∈ inner, x ≠ ']')
    (htl0 : tl ≠ []) (htl : ∀ x ∈ tl, x ≠ ')' ∧ x ≠ ',') :
    (matchBroken ('v' :: 'a' :: 'r' :: '(' :: '-' :: '-' ::
      (nm ++ ',' :: (ws ++ '[' :: (inner ++ ']' :: (tl ++ ')' :: post)))))).isSome
      = true := by
  have e1 : spanP isAlphaDash
      (nm ++ ',' :: (ws ++ '[' :: (inner ++ ']' :: (tl ++ ')' :: post)))) =
      (nm, ',' :: (ws ++ '[' :: (inner ++ ']' :: (tl ++ ')' :: post)))) :=
    spanP_concat _ _ _ _ hnm (by decide)
  have e2 : spanP isJsWs (ws ++ '[' :: (inner ++ ']' :: (tl ++ ')' :: post))) =
      (ws, '[' :: (inner ++ ']' :: (tl ++ ')' :: post))) :=
    spanP_concat _ _ _ _ hws (by decide)
  have e3 : spanP (fun c => ¬ (c = ']')) (inner ++ ']' :: (tl ++ ')' :: post)) =
      (inner, ']' :: (tl ++ ')' :: post)) :=
    spanP_concat _ _ _ _ (fun x hx => by simp [hin x hx]) (by decide)
  have e4 : spanP (fun c => ¬ (c = ')') ∧ ¬ (c = ',')) (tl ++ ')' :: post) =
      (tl, ')' :: post) :=
    spanP_concat _ _ _ _ (fun x hx => by simp [(htl x hx).1, (htl x hx).2]) (by decide)
  simp only [matchBroken, e1, e2, e3, e4]
  simp [hnm0, hin0, htl0]

/-!
## Claim theorems
-/

/-- Claim C1, counterexample.  The render path's scoping
(`injectScopedStyles` → `needsFix`/`fixBrokenCSS` → `scopeCSSSafe`) does
NOT turn the one-line rule `.btn { background: var(--c, #fff); }` into
`[data-component-id="x"] .btn { background: var(--c, #fff); }`: the
line-based `scopeCSSSafe` only rewrites a line that contains `{` and not
`}`, so the one-line rule passes through unchanged (with only a newline
appended) — the selector is never prefixed. -/
theorem c1_counterexample :
    renderScopedCSS ".btn \x7b background: var(--c, #fff); \x7d"
        "[data-component-id=\"x\"]" =
      ".btn \x7b background: var(--c, #fff); \x7d\n" ∧
    renderScopedCSS ".btn \x7b background: var(--c, #fff); \x7d"
        "[data-component-id=\"x\"]" ≠
      "[data-component-id=\"x\"] .btn \x7b background: var(--c, #fff); \x7d" := by
  constructor
  · decide
  · decide

/-- Claim C1, amended.  On the render path's scoping, a declaration block
— in particular the `var(--c, #fff)` fallback — is passed through
verbatim, and the scope prefix is applied only when the rule's selector
line contains `{` without `}`: the multi-line form of the same rule is
scoped exactly as the claim expects (fallback intact), while the
one-line form is returned unchanged apart from a trailing newline (its
fallback also intact, never rewritten to contain the scope selector). -/
theorem c1_amended :
    renderScopedCSS ".btn \x7b\n  background: var(--c, #fff);\n\x7d"
        "[data-component-id=\"x\"]" =
      "[data-component-id=\"x\"] .btn \x7b\n  background: var(--c, #fff);\n\x7d\n" ∧
    renderScopedCSS ".btn \x7b background: var(--c, #fff); \x7d"
        "[data-component-id=\"x\"]" =
      ".btn \x7b background: var(--c, #fff); \x7d\n" := by
  constructor
  · decide
  · decide

/-- Claim C2.  The tokenizer `parseRules`: (1) for every input, a
non-empty unterminated trailing chunk is emitted as the final rule; and
its brace counting ignores braces (2) inside string literals, (3) inside
block comments, (4) inside line comments, (5)–(6) inside `var(...)`
tracked by the parenthesis counter; (7) a concrete unterminated input is
emitted rather than dropped. -/
theorem c2_parse_rules :
    (∀ css : String,
      strTrimL (parseRulesAux css.data.length css.data
        none [] [] 0 false ' ' false false 0).2 ≠ "" →
      parseRules css =
        (parseRulesAux css.data.length css.data
          none [] [] 0 false ' ' false false 0).1 ++
        [strTrimL (parseRulesAux css.data.length css.data
          none [] [] 0 false ' ' false false 0).2]) ∧
    parseRules ".a\x7bcontent:\"\x7d\"\x7d.b\x7b\x7d" =
      [".a\x7bcontent:\"\x7d\"\x7d", ".b\x7b\x7d"] ∧
    parseRules ".a\x7b/*\x7d*/\x7d" = [".a\x7b\x7d"] ∧
    parseRules ".a\x7b//\x7d\n\x7d" = [".a\x7b\x7d"] ∧
    parseRules ".a\x7bb:var(--x,\x7b)\x7d" = [".a\x7bb:var(--x,\x7b)\x7d"] ∧
    parseRules ".a\x7bb:var(--x,\x7d)\x7d" = [".a\x7bb:var(--x,\x7d)\x7d"] ∧
    parseRules ".a\x7bcolor:red" = [".a\x7bcolor:red"] := by
  refine ⟨fun css h => ?_, by decide, by decide, by decide, by decide, by decide, by decide⟩
  unfold parseRules
  rw [if_pos h]

/-- Claim C3.  `needsFix` is true on any CSS containing the corruption
pattern `var(--name, [bracketed] value)` (stated for every decomposition
into the pattern's parts), in particular on the spec's example; and
`fixBrokenCSS` strips the bracketed fragment from every occurrence,
repairing the spec's example to `var(--c, #fff)` (shown also with two
occurrences in one string). -/
theorem c3_needs_fix_repair :
    (∀ pre nm ws inner tl post : List Char,
      nm ≠ [] → (∀ x ∈ nm, isAlphaDash x = true) →
      (∀ x ∈ ws, isJsWs x = true) →
      inner ≠ [] → (∀ x ∈ inner, x ≠ ']') →
      tl ≠ [] → (∀ x ∈ tl, x ≠ ')' ∧ x ≠ ',') →
      needsFix ⟨pre ++ 'v' :: 'a' :: 'r' :: '(' :: '-' :: '-' ::
        (nm ++ ',' :: (ws ++ '[' :: (inner ++ ']' :: (tl ++ ')' :: post))))⟩ = true) ∧
    needsFix "var(--c, [data-component-id=\"x\"] #fff)" = true ∧
    fixBrokenCSS "var(--c, [data-component-id=\"x\"] #fff)" = "var(--c, #fff)" ∧
    fixBrokenCSS
      ".a\x7bc:var(--c, [data-component-id=\"x\"] #fff);d:var(--e, [s] red)\x7d" =
      ".a\x7bc:var(--c, #fff);d:var(--e, red)\x7d" := by
  refine ⟨?_, by decide, by decide, by decide⟩
  intro pre nm ws inner tl post hnm0 hnm hws hin0 hin htl0 htl
  exact needsFixAux_append pre _
    (matchBroken_concat nm ws inner tl post hnm0 hnm hws hin0 hin htl0 htl)

/-- Claim C4, counterexample.  Scoping the spec's `@media` rule preserves
the prelude and rescopes the inner rule, but the output is not
byte-identical to the claim's expected string: the algorithm inserts a
space between the prelude and `{` and a newline after the inner rule. -/
theorem c4_counterexample :
    scopeRule "@media (max-width:768px)\x7b.a\x7bcolor:red\x7d\x7d" "[id=\"x\"]" =
      "@media (max-width:768px) \x7b[id=\"x\"] .a\x7bcolor:red\x7d\n\x7d" ∧
    scopeRule "@media (max-width:768px)\x7b.a\x7bcolor:red\x7d\x7d" "[id=\"x\"]" ≠
      "@media (max-width:768px)\x7b[id=\"x\"] .a\x7bcolor:red\x7d\x7d" := by
  constructor
  · decide
  · decide

/-- Claim C4, amended.  `@media` preludes are preserved (modulo the
reformatting the counterexample exhibits: a space before the brace, a
newline after each inner rule) with the inner rule list recursively
scoped by the same algorithm; and every rule whose head starts with
`@keyframes` is returned byte-identical by `scopeRule`, for every rule
text and scope selector. -/
theorem c4_amended :
    scopeRule "@media (max-width:768px)\x7b.a\x7bcolor:red\x7d\x7d" "[id=\"x\"]" =
      "@media (max-width:768px) \x7b[id=\"x\"] .a\x7bcolor:red\x7d\n\x7d" ∧
    (∀ rule scopeSelector : String,
      isPre "@keyframes".data (trimL (rule.data.takeWhile (· ≠ '\x7b'))) = true →
      scopeRule rule scopeSelector = rule) := by
  refine ⟨by decide, fun rule scopeSelector h => ?_⟩
  show scopeCssF (rule.data.length + 2) true rule scopeSelector = rule
  have hfuel : rule.data.length + 2 = Nat.succ (rule.data.length + 1) := rfl
  rw [hfuel]
  unfold scopeCssF
  by_cases hb : rule.data.contains '\x7b'
  · rw [if_neg (by simpa using List.mem_of_elem_eq_true hb)]
    have hat : isPre ['@'] (strTrimL (rule.data.takeWhile (· ≠ '\x7b'))).data = true :=
      isPre_head _ _ _ h
    rw [if_pos hat]
    have hany : nonScopedAtRules.any
        (fun p => isPre p.data (strTrimL (rule.data.takeWhile (· ≠ '\x7b'))).data) = true := by
      simp only [nonScopedAtRules, List.any_cons, Bool.or_eq_true]
      exact Or.inl h
    rw [if_pos hany]
  · rw [if_pos (by simpa using fun hm => hb (List.elem_eq_true_of_mem hm))]

/-- Claim C4, amended, witness: the general `@keyframes` part applied to
the spec's example rule. -/
theorem c4_amended_witness :
    scopeRule "@keyframes spin\x7b0%\x7btransform:rotate(0)\x7d\x7d" "[id=\"x\"]" =
      "@keyframes spin\x7b0%\x7btransform:rotate(0)\x7d\x7d" :=
  c4_amended.2 _ _ (by decide)

/-- Claim C5, counterexample.  On the render path's selector scoper
(`scopeSelectorsSafe`, the one `scopeCSSSafe` and so `injectScopedStyles`
use), `:host(.active)` is rewritten by a plain first-occurrence
replacement of `:host`, keeping the parentheses: the result is
`<scope>(.active)`, not the claimed `<scope>.active`. -/
theorem c5_counterexample :
    scopeSelectorsSafe ":host(.active)" "[data-component-id=\"x\"]" =
      "[data-component-id=\"x\"](.active)" ∧
    scopeSelectorsSafe ":host(.active)" "[data-component-id=\"x\"]" ≠
      "[data-component-id=\"x\"].active" := by
  constructor
  · decide
  · decide

/-- Claim C5, amended.  `handleHostSelector` (used by `scopeSelectors`)
rewrites the `:host` family exactly as the claim states, for every scope
selector: bare `:host` to the scope selector, `:host(.active)` to the
scope selector directly concatenated with `.active`, and `:host:hover`
to the scope selector concatenated with `:hover`.  The render path's
`scopeSelectorsSafe` agrees on `:host` and `:host:hover` but maps
`:host(.active)` to the scope selector followed by `(.active)`, keeping
the parentheses. -/
theorem c5_amended :
    (∀ scopeSelector : String,
      handleHostSelector ":host" scopeSelector = scopeSelector ∧
      handleHostSelector ":host(.active)" scopeSelector = scopeSelector ++ ".active" ∧
      handleHostSelector ":host:hover" scopeSelector = scopeSelector ++ ":hover" ∧
      scopeSelectors ":host" scopeSelector = scopeSelector ∧
      scopeSelectors ":host(.active)" scopeSelector = scopeSelector ++ ".active" ∧
      scopeSelectors ":host:hover" scopeSelector = scopeSelector ++ ":hover") ∧
    scopeSelectorsSafe ":host" "[data-component-id=\"x\"]" =
      "[data-component-id=\"x\"]" ∧
    scopeSelectorsSafe ":host:hover" "[data-component-id=\"x\"]" =
      "[data-component-id=\"x\"]:hover" ∧
    scopeSelectorsSafe ":host(.active)" "[data-component-id=\"x\"]" =
      "[data-component-id=\"x\"](.active)" := by
  refine ⟨fun scopeSelector => ⟨rfl, rfl, rfl, rfl, rfl, rfl⟩, by decide, by decide, by decide⟩

/-- Claim C6, counterexample.  `simpleScopeCSS` (one of the cited scoping
implementations) DOES prefix `body` with the scope selector, and
`scopeSelectors` DOES prefix the custom-property-like selector
`--my-var2` (its spare-list regex `^--[a-zA-Z-]+$` rejects the digit). -/
theorem c6_counterexample :
    simpleScopeCSS "body \x7b\ncolor:red;\n\x7d" "x" =
      "[data-component-id=\"x\"] body \x7b\ncolor:red;\n\x7d\n" ∧
    simpleScopeCSS "body \x7b\ncolor:red;\n\x7d" "x" ≠
      "body \x7b\ncolor:red;\n\x7d\n" ∧
    scopeSelectors "--my-var2" "[data-component-id=\"x\"]" =
      "[data-component-id=\"x\"] --my-var2" := by
  refine ⟨by decide, by decide, by decide⟩

/-- Claim C6, amended.  For every scope selector: `html`, `:root`, `body`
and `--custom-prop` pass through `scopeSelectors` and
`scopeSelectorsSafe` unchanged; `scopeSelectorsSafe` also spares every
selector starting `--` (such as `--my-var2`), while `scopeSelectors`
spares only those matching `^--[a-zA-Z-]+$` and prefixes `--my-var2`;
`simpleScopeCSS` leaves `html`, `:root` and `--`-led rule lines
unchanged (but not `body`, per the counterexample). -/
theorem c6_amended :
    (∀ scopeSelector : String,
      scopeSelectors "html" scopeSelector = "html" ∧
      scopeSelectors ":root" scopeSelector = ":root" ∧
      scopeSelectors "body" scopeSelector = "body" ∧
      scopeSelectors "--custom-prop" scopeSelector = "--custom-prop" ∧
      scopeSelectorsSafe "html" scopeSelector = "html" ∧
      scopeSelectorsSafe ":root" scopeSelector = ":root" ∧
      scopeSelectorsSafe "body" scopeSelector = "body" ∧
      scopeSelectorsSafe "--custom-prop" scopeSelector = "--custom-prop" ∧
      scopeSelectorsSafe "--my-var2" scopeSelector = "--my-var2" ∧
      scopeSelectors "--my-var2" scopeSelector = scopeSelector ++ " " ++ "--my-var2") ∧
    (∀ scopeId : String,
      simpleScopeCSS "html \x7b\n\x7d" scopeId = "html \x7b\n\x7d\n" ∧
      simpleScopeCSS ":root \x7b\n\x7d" scopeId = ":root \x7b\n\x7d\n" ∧
      simpleScopeCSS "--theme \x7b\n\x7d" scopeId = "--theme \x7b\n\x7d\n") := by
  exact ⟨fun scopeSelector => ⟨rfl, rfl, rfl, rfl, rfl, rfl, rfl, rfl, rfl, rfl⟩,
    fun scopeId => ⟨rfl, rfl, rfl⟩⟩

/-- Claim C7.  `validate` (manual branch, the one without a browser CSS
engine) returns `true` exactly on brace-balanced CSS — final
string-literal-aware brace count zero and never negative on a prefix —
and returns `false` (it never propagates its internal throw) on an
unmatched `}` or a leftover `{`, shown also on concrete inputs with
nested at-rule braces and braces inside string literals. -/
theorem c7_validate :
    (∀ css : String, validate css = true ↔ braceBalanced css) ∧
    validate "@media\x7b.a\x7bb:c\x7d\x7d" = true ∧
    validate ".a\x7bcontent:\"\x7d\"\x7d" = true ∧
    validate ".a\x7d" = false ∧
    validate ".a\x7b" = false := by
  refine ⟨fun css => ?_, by decide, by decide, by decide, by decide⟩
  unfold validate braceBalanced
  rw [validateAux_spec css.data none false ' ' 0 le_rfl]
  by_cases hmin : 0 ≤ minDepth css.data none false ' ' 0
  · rw [if_pos hmin]
    constructor
    · intro h
      refine ⟨?_, hmin⟩
      by_contra hne
      simp [hne] at h
    · intro h
      simp [h.1]
  · rw [if_neg hmin]
    constructor
    · intro h; cases h
    · intro h; exact absurd h.2 hmin

/-- Claim C8.  When every fetch attempt fails and the configuration has
`retryCount = 2`, `fetchComponentWithRetry` makes exactly 3 attempts
(1 initial + 2 retries), awaits linear backoff delays `retryDelay * 1`
and `retryDelay * 2` before the two retries, and surfaces the error of
the last attempt; `loadComponent` (graceful mode, nothing cached) then
puts the placeholder in the error state: `data-error = "true"`,
`data-loading = "false"`, the last error recorded, no exception
propagated. -/
theorem c8_retry_exhaustion (fetch : Nat → Except String CompData)
    (errs : Nat → String) (retryDelay : Nat)
    (renderEffect : ElementState → CompData → ElementState)
    (cacheEnabled : Bool) (el : ElementState) (lid : String)
    (h : ∀ i, fetch i = .error (errs i)) :
    (fetchComponentWithRetry fetch 2 retryDelay).attempts = 3 ∧
    (fetchComponentWithRetry fetch 2 retryDelay).delays =
      [retryDelay * 1, retryDelay * 2] ∧
    (fetchComponentWithRetry fetch 2 retryDelay).result = .error (errs 2) ∧
    (loadComponentModel fetch 2 retryDelay true renderEffect
        cacheEnabled none el lid).1.error = some "true" ∧
    (loadComponentModel fetch 2 retryDelay true renderEffect
        cacheEnabled none el lid).1.loading = some "false" ∧
    (loadComponentModel fetch 2 retryDelay true renderEffect
        cacheEnabled none el lid).1.loaded = some "false" ∧
    (loadComponentModel fetch 2 retryDelay true renderEffect
        cacheEnabled none el lid).1.errorMessage = some (errs 2) ∧
    (loadComponentModel fetch 2 retryDelay true renderEffect
        cacheEnabled none el lid).2 = .ok () := by
  have hr : fetchComponentWithRetry fetch 2 retryDelay =
      ⟨.error (errs 2), 3, [retryDelay * 1, retryDelay * 2]⟩ := by
    unfold fetchComponentWithRetry
    show fwrAux fetch retryDelay 0 (Nat.succ 1) [] = _
    unfold fwrAux
    rw [h 0]
    show fwrAux fetch retryDelay 1 (Nat.succ 0) [retryDelay * 1] = _
    unfold fwrAux
    rw [h 1]
    show fwrAux fetch retryDelay 2 0 [retryDelay * 1, retryDelay * 2] = _
    unfold fwrAux
    rw [h 2]
  have hl : loadComponentModel fetch 2 retryDelay true renderEffect
      cacheEnabled none el lid =
      (ElementState.mk (some "false") (some "false") (some "true") (some (errs 2))
        (if el.errorRendered = none then some "true" else el.errorRendered) none,
       .ok ()) := by
    unfold loadComponentModel
    cases cacheEnabled <;>
      · simp only [hr]
        by_cases he : el.errorRendered = none <;> simp [he]
  refine ⟨by rw [hr], by rw [hr], by rw [hr], by rw [hl], by rw [hl], by rw [hl],
    by rw [hl], by rw [hl]⟩

/-- Claim C8, witness: a fetch that always fails with "HTTP 500" under
`retryCount = 2`, `retryDelay = 7`. -/
theorem c8_retry_exhaustion_witness :
    (fetchComponentWithRetry
      (fun _ => (.error "HTTP 500" : Except String CompData)) 2 7).attempts = 3 ∧
    (fetchComponentWithRetry
      (fun _ => (.error "HTTP 500" : Except String CompData)) 2 7).delays =
      [7 * 1, 7 * 2] ∧
    (fetchComponentWithRetry
      (fun _ => (.error "HTTP 500" : Except String CompData)) 2 7).result =
      .error "HTTP 500" ∧
    (loadComponentModel (fun _ => .error "HTTP 500") 2 7 true (fun e _ => e)
        false none ElementState.fresh "lid").1.error = some "true" ∧
    (loadComponentModel (fun _ => .error "HTTP 500") 2 7 true (fun e _ => e)
        false none ElementState.fresh "lid").1.loading = some "false" ∧
    (loadComponentModel (fun _ => .error "HTTP 500") 2 7 true (fun e _ => e)
        false none ElementState.fresh "lid").1.loaded = some "false" ∧
    (loadComponentModel (fun _ => .error "HTTP 500") 2 7 true (fun e _ => e)
        false none ElementState.fresh "lid").1.errorMessage = some "HTTP 500" ∧
    (loadComponentModel (fun _ => .error "HTTP 500") 2 7 true (fun e _ => e)
        false none ElementState.fresh "lid").2 = .ok () :=
  c8_retry_exhaustion (fun _ => .error "HTTP 500") (fun _ => "HTTP 500") 7
    (fun e _ => e) false ElementState.fresh "lid" (fun _ => rfl)

/-- Claim C9.  `fixBrokenCSS` is the identity on every CSS string on
which `needsFix` is false: with no occurrence of the broken pattern, the
global replace rewrites nothing. -/
theorem c9_fix_identity (css : String) (h : needsFix css = false) :
    fixBrokenCSS css = css := by
  suffices hs : ∀ (fuel : Nat) (l : List Char), needsFixAux l = false → fixAux fuel l = l by
    unfold fixBrokenCSS
    rw [hs css.data.length css.data h]
  intro fuel
  induction fuel with
  | zero => intro l _; cases l <;> rfl
  | succ fuel ih =>
    intro l hl
    cases l with
    | nil => rfl
    | cons c t =>
      simp only [needsFixAux, Bool.or_eq_false_iff] at hl
      unfold fixAux
      cases hm : matchBroken (c :: t) with
      | some v => rw [hm] at hl; simp at hl
      | none => rw [ih t hl.2]

/-- Claim C9, witness: an already-clean string is untouched. -/
theorem c9_fix_identity_witness :
    needsFix ".btn \x7b background: var(--c, #fff); \x7d" = false ∧
    fixBrokenCSS ".btn \x7b background: var(--c, #fff); \x7d" =
      ".btn \x7b background: var(--c, #fff); \x7d" :=
  ⟨by decide, c9_fix_identity _ (by decide)⟩

/-- Claim C10.  For every `css`, `scopeId` and document state:
blank (empty or whitespace-only) CSS makes `injectStyles` return `null`
and leave the head and the style-tracking map untouched; non-blank CSS
makes it create exactly one style element carrying the scope id, append
it to the head, append it to the scope's tracked list (creating the list
when absent, never discarding existing entries, never touching other
scopes' lists), and return that element. -/
theorem c10_inject_styles (css scopeId : String) (doc : DocState) :
    (jsTrim css = "" → injectStyles css scopeId doc = (none, doc)) ∧
    (jsTrim css ≠ "" →
      (injectStyles css scopeId doc).1 = some ⟨scopeId, "true", css⟩ ∧
      (injectStyles css scopeId doc).2.headElems =
        doc.headElems ++ [⟨scopeId, "true", css⟩] ∧
      lookupA (injectStyles css scopeId doc).2.stylesMap scopeId =
        some (((lookupA doc.stylesMap scopeId).getD []) ++ [⟨scopeId, "true", css⟩]) ∧
      (∀ k, k ≠ scopeId →
        lookupA (injectStyles css scopeId doc).2.stylesMap k =
          lookupA doc.stylesMap k)) := by
  constructor
  · intro h
    unfold injectStyles
    rw [if_pos h]
  · intro h
    unfold injectStyles
    rw [if_neg h]
    refine ⟨rfl, rfl, ?_, ?_⟩
    · cases hlk : lookupA doc.stylesMap scopeId with
      | some L =>
        rw [if_pos (by simp [hlk])]
        rw [lookupA_updateA_self, hlk]
        rfl
      | none =>
        rw [if_neg (by simp [hlk])]
        rw [lookupA_updateA_self, lookupA_append_self doc.stylesMap scopeId hlk]
        rfl
    · intro k hk
      cases hlk : lookupA doc.stylesMap scopeId with
      | some L =>
        rw [if_pos (by simp [hlk])]
        rw [lookupA_updateA_other _ _ _ _ hk]
      | none =>
        rw [if_neg (by simp [hlk])]
        rw [lookupA_updateA_other _ _ _ _ hk, lookupA_append_other _ _ _ hk]

/-- Claim C10, witness: a whitespace-only injection into a document with
one tracked scope changes nothing; a non-blank injection into the same
document appends exactly one element. -/
theorem c10_inject_styles_witness :
    (jsTrim "  " = "" ∧
      injectStyles "  " "s" (DocState.mk [] [("t", [])]) =
        (none, DocState.mk [] [("t", [])])) ∧
    (jsTrim ".a \x7b color: red \x7d" ≠ "" ∧
      (injectStyles ".a \x7b color: red \x7d" "s"
        (DocState.mk [] [("t", [])])).1 = some ⟨"s", "true", ".a \x7b color: red \x7d"⟩ ∧
      (injectStyles ".a \x7b color: red \x7d" "s"
        (DocState.mk [] [("t", [])])).2.headElems =
        [] ++ [⟨"s", "true", ".a \x7b color: red \x7d"⟩] ∧
      lookupA (injectStyles ".a \x7b color: red \x7d" "s"
        (DocState.mk [] [("t", [])])).2.stylesMap "s" =
        some (((lookupA [("t", [])] "s").getD []) ++
          [⟨"s", "true", ".a \x7b color: red \x7d"⟩])) :=
  ⟨⟨by decide, (c10_inject_styles "  " "s" _).1 (by decide)⟩,
   by decide,
   ((c10_inject_styles ".a \x7b color: red \x7d" "s" _).2 (by decide)).1,
   ((c10_inject_styles ".a \x7b color: red \x7d" "s" _).2 (by decide)).2.1,
   ((c10_inject_styles ".a \x7b color: red \x7d" "s" _).2 (by decide)).2.2.1⟩
